import Mathlib

/-!
Verification of the dgo Dgraph client library.

The Go source is embedded shallowly: pure helpers become Lean functions,
stateful methods become explicit state passing, and network calls are
modelled by oracles (the server's reply is a parameter of the function).
Machine strings are Lean strings and Go errors are an explicit record of
the observations the client code makes on them.
-/

namespace Dgo

/-- A Go error as observed by this client library: whether
`status.FromError` succeeds on it (`isStatus`), the gRPC status code it
carries, and the string returned by `Error()`. A Go `error` value is
`Option GoErr`, with `none` standing for nil. -/
structure GoErr where
  isStatus : Bool
  code : Nat
  msg : String
deriving DecidableEq, Repr

/-- The value `codes.Unauthenticated` of google.golang.org/grpc/codes. -/
def codeUnauthenticated : Nat := 16

/-- Whether the first character list is a leading segment of the second
(helper for Go `strings.Contains`). -/
def charsHasPre : List Char → List Char → Bool
  | [], _ => true
  | _ :: _, [] => false
  | a :: as, b :: bs => a == b && charsHasPre as bs

/-- Whether the first character list occurs contiguously inside the
second (helper for Go `strings.Contains`). -/
def charsHasSub : List Char → List Char → Bool
  | sub, [] => charsHasPre sub []
  | sub, b :: bs => charsHasPre sub (b :: bs) || charsHasSub sub bs

/-- Go `strings.Contains(s, sub)`. -/
def goContains (s sub : String) : Bool := charsHasSub sub.toList s.toList

/-- Embeds `isJwtExpired` from client.go: true when the error is non-nil, is a
gRPC status error with code `Unauthenticated`, and its message contains
the marker "Token is expired". -/
def isJwtExpired : Option GoErr → Bool
  | none => false
  | some e => e.isStatus && e.code == codeUnauthenticated && goContains e.msg "Token is expired"

/-- The `api.Jwt` token pair held by the `Dgraph` client. -/
structure Jwt where
  accessJwt : String
  refreshJwt : String
deriving DecidableEq, Repr

/-- The error produced by `fmt.Errorf("refresh jwt should not be empty")`
in `retryLogin` (client.go); `status.FromError` does not recognise it. -/
def errEmptyRefreshJwt : GoErr :=
  { isStatus := false, code := 2, msg := "refresh jwt should not be empty" }

/-- Result of an operation that may mutate the stored token pair:
the new pair, the returned error, and how many network calls were made. -/
structure JwtOpRes where
  jwt : Jwt
  err : Option GoErr
  net : Nat
deriving DecidableEq, Repr

/-- Embeds `SignInUser` from ns.go: calls the sign-in RPC (its outcome is the
oracle `resp`); on error the stored pair is untouched, on success both
fields are assigned from the response. -/
def SignInUser (jwt : Jwt) (resp : Except GoErr Jwt) : JwtOpRes :=
  match resp with
  | .error e => ⟨jwt, some e, 1⟩
  | .ok r => ⟨{ accessJwt := r.accessJwt, refreshJwt := r.refreshJwt }, none, 1⟩

/-- Modelled outcome of a `dc.Login` RPC followed by
`proto.Unmarshal(resp.Json, &d.jwt)`: either the RPC itself fails (the
stored message is untouched), or the RPC succeeds and the unmarshal
fails — protobuf's `Unmarshal` resets the target message before
decoding, so the decode error leaves in `d.jwt` whatever residue the
decoder produced from the zero message (carried by the oracle) — or
both succeed and `d.jwt` becomes the decoded pair. -/
inductive LoginOutcome where
  | rpcError (e : GoErr)
  | decodeError (e : GoErr) (residue : Jwt)
  | ok (jwt : Jwt)
deriving DecidableEq, Repr

/-- Embeds `login` from client.go: calls the Login RPC; on RPC error the
stored pair is untouched; otherwise `proto.Unmarshal(resp.Json, &d.jwt)`
runs — replacing the whole pair on success, and on decode failure
returning the error with the pair reset and repopulated only as far as
the decoder got (the residue). -/
def login (jwt : Jwt) (o : LoginOutcome) : JwtOpRes :=
  match o with
  | .rpcError e => ⟨jwt, some e, 1⟩
  | .decodeError e residue => ⟨residue, some e, 1⟩
  | .ok newJwt => ⟨newJwt, none, 1⟩

/-- Embeds `retryLogin` from client.go: fails fast when no refresh token is
held; otherwise performs the login-by-refresh-token RPC followed by the
same unmarshal as `login`, with the same reset-on-decode-failure
behaviour. -/
def retryLogin (jwt : Jwt) (o : LoginOutcome) : JwtOpRes :=
  if jwt.refreshJwt.length = 0 then ⟨jwt, some errEmptyRefreshJwt, 0⟩
  else
    match o with
    | .rpcError e => ⟨jwt, some e, 1⟩
    | .decodeError e residue => ⟨residue, some e, 1⟩
    | .ok newJwt => ⟨newJwt, none, 1⟩

/-- The error component of a Go `(resp, err)` pair modelled as `Except`. -/
def errOf {T : Type} : Except GoErr T → Option GoErr
  | .error e => some e
  | .ok _ => none

/-- Result of the retry-on-expiry wrapper: the returned value, the token
pair afterwards, how many times the wrapped RPC ran, and how many
credential refreshes ran. -/
structure WrapRes (T : Type) where
  out : Except GoErr T
  jwt : Jwt
  invocations : Nat
  refreshes : Nat
deriving Repr

/-- Embeds `doWithRetryLogin` from ns.go / ns_v25.go: run `f`; when the failure
is an expired token, refresh once via `retryLogin` (propagating its
failure) and rerun `f` once; otherwise return the first result
unchanged. `f`'s argument is the invocation index, so the two runs may
differ. -/
def doWithRetryLogin {T : Type} (jwt : Jwt) (loginResp : LoginOutcome)
    (f : Nat → Except GoErr T) : WrapRes T :=
  let r1 := f 1
  if isJwtExpired (errOf r1) then
    let rl := retryLogin jwt loginResp
    match rl.err with
    | some e => ⟨.error e, rl.jwt, 1, 1⟩
    | none => ⟨f 2, rl.jwt, 2, 1⟩
  else ⟨r1, jwt, 1, 0⟩

/-- Result of `Alter`, which returns only an error. -/
structure AlterRes where
  err : Option GoErr
  jwt : Jwt
  invocations : Nat
  refreshes : Nat
deriving DecidableEq, Repr

/-- Embeds `Alter` from client.go: run the Alter RPC; on an expired token,
refresh once via `retryLogin` (propagating its failure) and rerun the
RPC once; otherwise return the first error unchanged. -/
def Alter (jwt : Jwt) (loginResp : LoginOutcome)
    (alterCall : Nat → Option GoErr) : AlterRes :=
  let err1 := alterCall 1
  if isJwtExpired err1 then
    let rl := retryLogin jwt loginResp
    match rl.err with
    | some e => ⟨some e, rl.jwt, 1, 1⟩
    | none => ⟨alterCall 2, rl.jwt, 2, 1⟩
  else ⟨err1, jwt, 1, 0⟩

/-- Embeds `txnOptions` from dql.go / ns_v25.go; `respFormat` is the protobuf
enum value. -/
structure txnOptions where
  readOnly : Bool
  bestEffort : Bool
  respFormat : Nat
deriving DecidableEq, Repr

/-- A single `TxnOption` mutates the options and may fail (dql.go). -/
def TxnOption : Type := txnOptions → Except GoErr txnOptions

/-- Embeds `WithReadOnly` from dql.go. -/
def WithReadOnly : TxnOption := fun o => .ok { o with readOnly := true }

/-- Embeds `WithBestEffort` from dql.go: sets both `readOnly` and `bestEffort`. -/
def WithBestEffort : TxnOption := fun o => .ok { o with readOnly := true, bestEffort := true }

/-- Embeds `WithResponseFormat` from dql.go. -/
def WithResponseFormat (rf : Nat) : TxnOption := fun o => .ok { o with respFormat := rf }

/-- The `for _, opt := range opts` loop of `buildTxnOptions`. -/
def applyTxnOptions : txnOptions → List TxnOption → Except GoErr txnOptions
  | t, [] => .ok t
  | t, o :: rest =>
    match o t with
    | .error e => .error e
    | .ok t' => applyTxnOptions t' rest

/-- Embeds `buildTxnOptions` from dql.go / ns_v25.go: fold the options over the
zero value, then force `readOnly` whenever `bestEffort` is set. -/
def buildTxnOptions (opts : List TxnOption) : Except GoErr txnOptions :=
  match applyTxnOptions ⟨false, false, 0⟩ opts with
  | .error e => .error e
  | .ok t => .ok (if t.bestEffort then { t with readOnly := true } else t)

/-- The `ReadOnly`/`BestEffort` fields of the `api.RunDQLRequest` built
by `RunDQLWithVars` (dql.go). -/
structure RunDQLRequest where
  readOnly : Bool
  bestEffort : Bool
deriving DecidableEq, Repr

/-- The request construction of `RunDQLWithVars` (dql.go): the request
copies the two flags from the built options. -/
def runDQLRequest (topts : txnOptions) : RunDQLRequest :=
  { readOnly := topts.readOnly, bestEffort := topts.bestEffort }

/-- ASCII lowering of one character, as Go `strings.ToLower` acts on the
ASCII keys used by grpc metadata. -/
def lowerChar (c : Char) : Char :=
  if 'A' ≤ c ∧ c ≤ 'Z' then Char.ofNat (c.toNat + 32) else c

/-- Key lowering performed by grpc `metadata.MD.Set`. -/
def goToLower (s : String) : String := String.mk (s.toList.map lowerChar)

/-- grpc `metadata.MD` modelled as a total map from keys to value lists
(absent key = empty list). -/
def MD : Type := String → List String

/-- Embeds `metadata.New(nil)`: the empty metadata. -/
def mdEmpty : MD := fun _ => []

/-- grpc `metadata.MD.Set(k, vals...)`: no-op on an empty value list,
otherwise stores the values under the lowercased key. -/
def mdSet (md : MD) (k : String) (vs : List String) : MD :=
  if vs = [] then md else fun k' => if k' = goToLower k then vs else md k'

/-- grpc `metadata.MD.Get(k)`: lookup under the lowercased key. -/
def mdGet (md : MD) (k : String) : List String := md (goToLower k)

/-- A Go context as observed by `getContext`: `none` when
`metadata.FromOutgoingContext` reports no outgoing metadata. -/
structure GoContext where
  md : Option MD

/-- Embeds `getContext` from client.go: when an access token is held, stamp it
onto the outgoing metadata (creating the metadata when absent);
otherwise return the context unchanged. -/
def getContext (jwt : Jwt) (ctx : GoContext) : GoContext :=
  if jwt.accessJwt.length > 0 then
    let md := match ctx.md with
      | some m => m
      | none => mdEmpty
    { md := some (mdSet md "accessJwt" [jwt.accessJwt]) }
  else ctx

/-- Embeds `MaxAttempts` from retry.go. -/
def MaxAttempts : Nat := 5

/-- Embeds `IsRetryable` from retry.go, over the error's `Error()` string. -/
def IsRetryable (msg : String) : Bool := goContains msg "504 (Gateway Timeout)"

/-- The `for attempt := 1; attempt <= MaxAttempts; attempt++` loop of
`RetryWithExponentialBackoff`, with the trailing `return op()`:
`attempt` is the index of the next call of `op`, `fuel` the loop
iterations left. Returns the `(T, error)` pair and the index of the
last call made. -/
def retryLoopGo {T : Type} [Inhabited T] (op : Nat → T × Option String) :
    Nat → Nat → (T × Option String) × Nat
  | attempt, 0 => (op attempt, attempt)
  | attempt, fuel + 1 =>
    let r := op attempt
    match r.2 with
    | none => ((r.1, none), attempt)
    | some e =>
      if IsRetryable e then retryLoopGo op (attempt + 1) fuel
      else ((default, some e), attempt)

/-- Embeds `RetryWithExponentialBackoff` from retry.go; the second component of
the result counts how many times `op` was invoked. -/
def RetryWithExponentialBackoff {T : Type} [Inhabited T]
    (op : Nat → T × Option String) : (T × Option String) × Nat :=
  retryLoopGo op 1 MaxAttempts

/-- The sentinel errors of the transaction API (`dgo.ErrFinished`,
`dgo.ErrReadOnly`, `dgo.ErrAborted`) plus propagated transport errors. -/
inductive DgoError where
  | errFinished
  | errReadOnly
  | errAborted
  | transport (e : GoErr)
deriving DecidableEq, Repr

/-- Modelled from the spec: the Transaction record of spec section 3
(the file txn.go implementing it is not part of the source tree; only
its tests are). `startTs` is 0 until the first server interaction. -/
structure Txn where
  readOnly : Bool
  bestEffort : Bool
  finished : Bool
  mutated : Bool
  startTs : Nat
  keys : List String
  preds : List Nat
deriving DecidableEq, Repr

/-- Modelled from the spec: the transaction context a server reply
carries back (start timestamp and additional conflict keys / predicate
hashes). -/
structure ServerResp where
  startTs : Nat
  keys : List String
  preds : List Nat
deriving DecidableEq, Repr

/-- Modelled from the spec: a mutation payload; only the commit-now flag
is observable by the lifecycle logic. -/
structure MutationReq where
  commitNow : Bool
deriving DecidableEq, Repr

/-- Modelled from the spec: a `Do` request bundling one query and N
mutations, with a commit-now flag. -/
structure DoReq where
  query : String
  mutations : List MutationReq
  commitNow : Bool
deriving Repr

/-- Modelled from the spec: merging the server-returned context into the
transaction — start timestamp assigned only when still unset, keys and
predicate hashes accumulated by union. -/
def mergeContext (t : Txn) (r : ServerResp) : Txn :=
  { t with
    startTs := if t.startTs = 0 then r.startTs else t.startTs,
    keys := t.keys.union r.keys,
    preds := t.preds.union r.preds }

/-- Result of a query/mutate/do step: the transaction afterwards, the
returned value or error, and the number of network calls performed. -/
structure StepRes where
  txn : Txn
  out : Except DgoError ServerResp
  net : Nat
deriving Repr

/-- Modelled from the spec: `Do` — fail with `TransactionFinished` when
the transaction is finished, with `ReadOnlyViolation` when it is
read-only and the request carries mutations, both before any network
call; otherwise send the request (oracle `o`), propagate transport
errors unchanged, and on success merge the returned context, record
that a mutation happened, and finish the transaction when commit-now
was requested. -/
def specDo (t : Txn) (req : DoReq) (o : Except GoErr ServerResp) : StepRes :=
  if t.finished then ⟨t, .error .errFinished, 0⟩
  else if !req.mutations.isEmpty && t.readOnly then ⟨t, .error .errReadOnly, 0⟩
  else
    match o with
    | .error e => ⟨t, .error (.transport e), 1⟩
    | .ok r =>
      let t1 := if !req.mutations.isEmpty then { t with mutated := true } else t
      let t2 := mergeContext t1 r
      if req.commitNow then ⟨{ t2 with finished := true }, .ok r, 1⟩ else ⟨t2, .ok r, 1⟩

/-- Modelled from the spec: `Query` is `Do` with no mutations. -/
def specQuery (t : Txn) (q : String) (o : Except GoErr ServerResp) : StepRes :=
  specDo t ⟨q, [], false⟩ o

/-- Modelled from the spec: `Mutate` is `Do` with a single mutation,
honouring its commit-now flag. -/
def specMutate (t : Txn) (mu : MutationReq) (o : Except GoErr ServerResp) : StepRes :=
  specDo t ⟨"", [mu], mu.commitNow⟩ o

/-- Modelled from the spec: the server's verdict on a commit attempt. -/
inductive CommitOutcome where
  | ok
  | conflict
  | fail (e : GoErr)
deriving DecidableEq, Repr

/-- Result of a commit or discard step. -/
structure FinishRes where
  txn : Txn
  err : Option DgoError
  net : Nat
deriving Repr

/-- Modelled from the spec: `Commit` — `TransactionFinished` when already
finished; a pure-read transaction commits locally with no network call;
otherwise the accumulated context goes to the commit-or-abort endpoint
and the verdict is surfaced (`TransactionAborted` on conflict);
`finished` is set before returning regardless of outcome. -/
def specCommit (t : Txn) (o : CommitOutcome) : FinishRes :=
  if t.finished then ⟨t, some .errFinished, 0⟩
  else if !t.mutated then ⟨{ t with finished := true }, none, 0⟩
  else
    match o with
    | .ok => ⟨{ t with finished := true }, none, 1⟩
    | .conflict => ⟨{ t with finished := true }, some .errAborted, 1⟩
    | .fail e => ⟨{ t with finished := true }, some (.transport e), 1⟩

/-- Modelled from the spec: `Discard` — a no-op on a finished
transaction; otherwise notify the server only when an uncommitted
mutation was performed, ignore the server's response, and
unconditionally set `finished`. -/
def specDiscard (t : Txn) : FinishRes :=
  if t.finished then ⟨t, none, 0⟩
  else if t.mutated then ⟨{ t with finished := true }, none, 1⟩
  else ⟨{ t with finished := true }, none, 0⟩

/-- Modelled from the spec: one operation of the transaction API, with
its oracle. -/
inductive TxnOp where
  | query (q : String) (o : Except GoErr ServerResp)
  | mutate (mu : MutationReq) (o : Except GoErr ServerResp)
  | doReq (req : DoReq) (o : Except GoErr ServerResp)
  | commit (o : CommitOutcome)
  | discard
deriving Repr

/-- Dispatch one operation, keeping only the transaction and the network
call count. -/
def stepTxn (t : Txn) : TxnOp → Txn × Nat
  | .query q o => ((specQuery t q o).txn, (specQuery t q o).net)
  | .mutate mu o => ((specMutate t mu o).txn, (specMutate t mu o).net)
  | .doReq req o => ((specDo t req o).txn, (specDo t req o).net)
  | .commit o => ((specCommit t o).txn, (specCommit t o).net)
  | .discard => ((specDiscard t).txn, (specDiscard t).net)

/-- Run a list of operations, accumulating the network call count. -/
def runTxnOps : Txn → List TxnOp → Txn × Nat
  | t, [] => (t, 0)
  | t, op :: rest =>
    let r := stepTxn t op
    let rr := runTxnOps r.1 rest
    (rr.1, r.2 + rr.2)

/-- Iterate `Discard` N times, collecting each call's error and the total
network call count. -/
def discardN : Nat → Txn → Txn × List (Option DgoError) × Nat
  | 0, t => (t, [], 0)
  | n + 1, t =>
    let r := specDiscard t
    let rest := discardN n r.txn
    (rest.1, r.err :: rest.2.1, r.net + rest.2.2)

/-- A concrete token-expired error as the server produces it. -/
def expiredErr : GoErr :=
  { isStatus := true, code := 16
    msg := "rpc error: code = Unauthenticated desc = Token is expired" }

/-- A concrete decode failure as protobuf's `Unmarshal` produces it. -/
def errBadJson : GoErr :=
  { isStatus := false, code := 2, msg := "cannot parse invalid wire-format data" }

/-- A wrapped RPC failing with an expired token on the first invocation
and succeeding on the second. -/
def fExpiredOnce : Nat → Except GoErr Nat :=
  fun i => if i = 1 then .error expiredErr else .ok 42

/-- An Alter RPC failing with an expired token on the first invocation
and succeeding on the second. -/
def gExpiredOnce : Nat → Option GoErr :=
  fun i => if i = 1 then some expiredErr else none

/-- An operation that always succeeds. -/
def opAlwaysOk : Nat → Nat × Option String := fun _ => (7, none)

/-- An operation that always fails with a non-retryable error. -/
def opFatal : Nat → Nat × Option String := fun _ => (7, some "bad request")

/-- An operation that always fails with a retryable gateway timeout. -/
def opTimeout : Nat → Nat × Option String :=
  fun i => (i, some "server replied: 504 (Gateway Timeout)")

/-- Metadata already carrying an accessJwt entry. -/
def mdOld : MD := fun k => if k = "accessjwt" then ["old"] else []

/-- A context whose outgoing metadata already carries an accessJwt
entry. -/
def ctxOld : GoContext := ⟨some mdOld⟩

/-- A client holding the access token "new". -/
def jwtNew : Jwt := ⟨"new", ""⟩

/-- A finished transaction. -/
def tFin : Txn := ⟨false, false, true, false, 7, ["k"], [3]⟩

/-- An active read-only transaction. -/
def tRO : Txn := ⟨true, false, false, false, 0, [], []⟩

/-- An active read-write transaction that has mutated. -/
def tMut : Txn := ⟨false, false, false, true, 7, ["k"], [3]⟩

/-! ### Helper lemmas -/

theorem specDiscard_err_none (t : Txn) : (specDiscard t).err = none := by
  by_cases h : t.finished <;> by_cases hm : t.mutated <;> simp [specDiscard, h, hm]

theorem specDiscard_txn_finished (t : Txn) : (specDiscard t).txn.finished = true := by
  by_cases h : t.finished <;> by_cases hm : t.mutated <;> simp [specDiscard, h, hm]

theorem specDiscard_net_le (t : Txn) : (specDiscard t).net ≤ 1 := by
  by_cases h : t.finished <;> by_cases hm : t.mutated <;> simp [specDiscard, h, hm]

theorem specDiscard_of_finished (t : Txn) (h : t.finished = true) :
    specDiscard t = ⟨t, none, 0⟩ := by
  simp [specDiscard, h]

theorem specCommit_txn_finished (t : Txn) (o : CommitOutcome) :
    (specCommit t o).txn.finished = true := by
  cases o <;> by_cases h : t.finished <;> by_cases hm : t.mutated <;>
    simp [specCommit, h, hm]

theorem specDo_of_finished (t : Txn) (req : DoReq) (o : Except GoErr ServerResp)
    (h : t.finished = true) : specDo t req o = ⟨t, .error .errFinished, 0⟩ := by
  simp [specDo, h]

theorem specCommit_of_finished (t : Txn) (o : CommitOutcome) (h : t.finished = true) :
    specCommit t o = ⟨t, some .errFinished, 0⟩ := by
  simp [specCommit, h]

theorem stepTxn_of_finished (t : Txn) (op : TxnOp) (h : t.finished = true) :
    stepTxn t op = (t, 0) := by
  cases op <;>
    simp [stepTxn, specQuery, specMutate, specDo_of_finished _ _ _ h,
      specCommit_of_finished _ _ h, specDiscard_of_finished _ h]

theorem runTxnOps_of_finished (t : Txn) (ops : List TxnOp) (h : t.finished = true) :
    runTxnOps t ops = (t, 0) := by
  induction ops with
  | nil => simp [runTxnOps]
  | cons op rest ih => simp [runTxnOps, stepTxn_of_finished _ _ h, ih]

theorem discardN_of_finished (n : Nat) (t : Txn) (h : t.finished = true) :
    discardN n t = (t, List.replicate n none, 0) := by
  induction n with
  | zero => simp [discardN]
  | succ m ih =>
    simp [discardN, specDiscard_of_finished _ h, ih, List.replicate_succ]

/-! ### Claim theorems -/

/-- C4: `isJwtExpired err` is true iff `err` is non-nil, carries an RPC
status with code Unauthenticated, and its message contains "Token is
expired"; consequently a nil error, a non-status error, or an
authentication failure without that marker never triggers a
refresh-and-retry in the wrapper and is propagated immediately. -/
theorem isJwtExpired_characterisation :
    (∀ e : Option GoErr,
      isJwtExpired e = true ↔
        ∃ g, e = some g ∧ g.isStatus = true ∧ g.code = codeUnauthenticated ∧
          goContains g.msg "Token is expired" = true) ∧
    (∀ {T : Type} (jwt : Jwt) (lr : LoginOutcome) (f : Nat → Except GoErr T),
      isJwtExpired (errOf (f 1)) = false →
        doWithRetryLogin jwt lr f = ⟨f 1, jwt, 1, 0⟩) := by
  constructor
  · intro e
    cases e with
    | none => simp [isJwtExpired]
    | some g =>
      simp only [isJwtExpired, Bool.and_eq_true, beq_iff_eq, Option.some.injEq]
      constructor
      · rintro ⟨⟨h1, h2⟩, h3⟩
        exact ⟨g, rfl, h1, h2, h3⟩
      · rintro ⟨g', rfl, h1, h2, h3⟩
        exact ⟨⟨h1, h2⟩, h3⟩
  · intro T jwt lr f h
    simp [doWithRetryLogin, h]

/-- Witness for C4 at concrete inputs. -/
theorem isJwtExpired_characterisation_witness :
    isJwtExpired (some expiredErr) = true ∧
    doWithRetryLogin ⟨"a", "r"⟩ (.ok ⟨"a2", "r2"⟩) (fun _ => (.ok 7 : Except GoErr Nat)) =
      ⟨.ok 7, ⟨"a", "r"⟩, 1, 0⟩ := by
  constructor
  · exact (isJwtExpired_characterisation.1 (some expiredErr)).2
      ⟨expiredErr, rfl, rfl, rfl, by decide⟩
  · exact isJwtExpired_characterisation.2 ⟨"a", "r"⟩ (.ok ⟨"a2", "r2"⟩) _ (by decide)

/-- C7: `WithBestEffort` sets `readOnly`, and `buildTxnOptions`
normalizes any option set with `bestEffort` to also have `readOnly`, so
no request is produced with `BestEffort = true` and `ReadOnly = false`. -/
theorem bestEffort_implies_readOnly :
    (∀ o o', WithBestEffort o = .ok o' → o'.readOnly = true ∧ o'.bestEffort = true) ∧
    (∀ (opts : List TxnOption) (topts : txnOptions),
      buildTxnOptions opts = .ok topts →
        (topts.bestEffort = true → topts.readOnly = true) ∧
        ¬((runDQLRequest topts).bestEffort = true ∧ (runDQLRequest topts).readOnly = false)) := by
  constructor
  · intro o o' h
    simp only [WithBestEffort, Except.ok.injEq] at h
    subst h
    exact ⟨rfl, rfl⟩
  · intro opts topts h
    unfold buildTxnOptions at h
    cases happ : applyTxnOptions ⟨false, false, 0⟩ opts with
    | error e => rw [happ] at h; exact absurd h (by simp)
    | ok t =>
      rw [happ] at h
      simp only [Except.ok.injEq] at h
      by_cases hb : t.bestEffort = true
      · rw [if_pos hb] at h
        subst h
        exact ⟨fun _ => rfl, by simp [runDQLRequest]⟩
      · rw [if_neg hb] at h
        subst h
        refine ⟨fun hc => absurd hc hb, ?_⟩
        simp only [runDQLRequest, not_and]
        intro hc
        exact absurd hc hb

/-- Witness for C7 at a concrete option list. -/
theorem bestEffort_implies_readOnly_witness :
    (⟨true, true, 0⟩ : txnOptions).readOnly = true ∧
    ¬((runDQLRequest ⟨true, true, 0⟩).bestEffort = true ∧
      (runDQLRequest ⟨true, true, 0⟩).readOnly = false) := by
  have h := bestEffort_implies_readOnly.2 [WithBestEffort] ⟨true, true, 0⟩ rfl
  exact ⟨h.1 rfl, h.2⟩

/-- C2: for every RPC routed through `doWithRetryLogin` (and `Alter`'s
inline equivalent): when the first invocation fails token-expired,
exactly one refresh runs; if the refresh succeeds, exactly one
re-invocation runs and its result (success or failure) is returned
unchanged; a refresh failure is propagated with no re-invocation and no
further retry. When the first invocation succeeds or fails otherwise,
no refresh and no second invocation occur and the result is returned
unchanged. -/
theorem doWithRetryLogin_spec :
    ∀ {T : Type} (jwt : Jwt) (lr : LoginOutcome) (f : Nat → Except GoErr T)
      (g : Nat → Option GoErr),
      (isJwtExpired (errOf (f 1)) = true →
        (doWithRetryLogin jwt lr f).refreshes = 1 ∧
        ((retryLogin jwt lr).err = none →
          (doWithRetryLogin jwt lr f).invocations = 2 ∧
          (doWithRetryLogin jwt lr f).out = f 2 ∧
          (doWithRetryLogin jwt lr f).jwt = (retryLogin jwt lr).jwt) ∧
        (∀ e, (retryLogin jwt lr).err = some e →
          (doWithRetryLogin jwt lr f).invocations = 1 ∧
          (doWithRetryLogin jwt lr f).out = .error e)) ∧
      (isJwtExpired (errOf (f 1)) = false →
        doWithRetryLogin jwt lr f = ⟨f 1, jwt, 1, 0⟩) ∧
      (isJwtExpired (g 1) = true →
        (Alter jwt lr g).refreshes = 1 ∧
        ((retryLogin jwt lr).err = none →
          (Alter jwt lr g).invocations = 2 ∧ (Alter jwt lr g).err = g 2) ∧
        (∀ e, (retryLogin jwt lr).err = some e →
          (Alter jwt lr g).invocations = 1 ∧ (Alter jwt lr g).err = some e)) ∧
      (isJwtExpired (g 1) = false → Alter jwt lr g = ⟨g 1, jwt, 1, 0⟩) := by
  intro T jwt lr f g
  refine ⟨?_, ?_, ?_, ?_⟩
  · intro h
    cases herr : (retryLogin jwt lr).err with
    | none =>
      refine ⟨?_, fun _ => ⟨?_, ?_, ?_⟩, fun e he => absurd he (by simp)⟩ <;>
        simp [doWithRetryLogin, h, herr]
    | some e0 =>
      refine ⟨?_, fun hn => absurd hn (by simp), fun e he => ?_⟩
      · simp [doWithRetryLogin, h, herr]
      · injection he with he2
        subst he2
        constructor <;> simp [doWithRetryLogin, h, herr]
  · intro h
    simp [doWithRetryLogin, h]
  · intro h
    cases herr : (retryLogin jwt lr).err with
    | none =>
      refine ⟨?_, fun _ => ⟨?_, ?_⟩, fun e he => absurd he (by simp)⟩ <;>
        simp [Alter, h, herr]
    | some e0 =>
      refine ⟨?_, fun hn => absurd hn (by simp), fun e he => ?_⟩
      · simp [Alter, h, herr]
      · injection he with he2
        subst he2
        constructor <;> simp [Alter, h, herr]
  · intro h
    simp [Alter, h]

/-- Witness for C2 at concrete inputs: an RPC whose first invocation is
token-expired and a refresh that succeeds. -/
theorem doWithRetryLogin_spec_witness :
    (doWithRetryLogin ⟨"a", "r"⟩ (.ok ⟨"a2", "r2"⟩) fExpiredOnce).invocations = 2 ∧
    (doWithRetryLogin ⟨"a", "r"⟩ (.ok ⟨"a2", "r2"⟩) fExpiredOnce).out = fExpiredOnce 2 ∧
    (doWithRetryLogin ⟨"a", "r"⟩ (.ok ⟨"a2", "r2"⟩) fExpiredOnce).refreshes = 1 ∧
    (Alter ⟨"a", "r"⟩ (.ok ⟨"a2", "r2"⟩) gExpiredOnce).invocations = 2 ∧
    (Alter ⟨"a", "r"⟩ (.ok ⟨"a2", "r2"⟩) gExpiredOnce).err = gExpiredOnce 2 := by
  have h := doWithRetryLogin_spec ⟨"a", "r"⟩ (.ok ⟨"a2", "r2"⟩) fExpiredOnce gExpiredOnce
  have h1 := h.1 (by decide)
  have h3 := h.2.2.1 (by decide)
  have hrl : (retryLogin ⟨"a", "r"⟩ (.ok ⟨"a2", "r2"⟩)).err = none := rfl
  obtain ⟨hr, hok, _⟩ := h1
  obtain ⟨hi, ho, _⟩ := hok hrl
  obtain ⟨hr3, hok3, _⟩ := h3
  obtain ⟨hi3, ho3⟩ := hok3 hrl
  exact ⟨hi, ho, hr, hi3, ho3⟩

/-- C10: `RetryWithExponentialBackoff` invokes the operation exactly
once and returns its result when the first invocation succeeds, exactly
once returning the zero value of T alongside the error when the first
invocation fails non-retryably, and exactly MaxAttempts + 1 = 6 times
when every invocation fails retryably, returning the last invocation's
result. -/
theorem retryWithExponentialBackoff_spec :
    ∀ {T : Type} [Inhabited T] (op : Nat → T × Option String),
      ((op 1).2 = none →
        RetryWithExponentialBackoff op = (((op 1).1, none), 1)) ∧
      (∀ e, (op 1).2 = some e → IsRetryable e = false →
        RetryWithExponentialBackoff op = ((default, some e), 1)) ∧
      ((∀ i, 1 ≤ i → i ≤ MaxAttempts + 1 → ∃ e, (op i).2 = some e ∧ IsRetryable e = true) →
        RetryWithExponentialBackoff op = (op 6, 6)) := by
  intro T _ op
  refine ⟨?_, ?_, ?_⟩
  · intro h
    simp [RetryWithExponentialBackoff, MaxAttempts, retryLoopGo, h]
  · intro e h hr
    simp [RetryWithExponentialBackoff, MaxAttempts, retryLoopGo, h, hr]
  · intro h
    obtain ⟨e1, he1, hr1⟩ := h 1 (by omega) (by simp [MaxAttempts])
    obtain ⟨e2, he2, hr2⟩ := h 2 (by omega) (by simp [MaxAttempts])
    obtain ⟨e3, he3, hr3⟩ := h 3 (by omega) (by simp [MaxAttempts])
    obtain ⟨e4, he4, hr4⟩ := h 4 (by omega) (by simp [MaxAttempts])
    obtain ⟨e5, he5, hr5⟩ := h 5 (by omega) (by simp [MaxAttempts])
    simp [RetryWithExponentialBackoff, MaxAttempts, retryLoopGo,
      he1, hr1, he2, hr2, he3, hr3, he4, hr4, he5, hr5]

/-- Witness for C10 on the three concrete operations. -/
theorem retryWithExponentialBackoff_spec_witness :
    RetryWithExponentialBackoff opAlwaysOk = ((7, none), 1) ∧
    RetryWithExponentialBackoff opFatal = ((default, some "bad request"), 1) ∧
    RetryWithExponentialBackoff opTimeout = (opTimeout 6, 6) := by
  refine ⟨?_, ?_, ?_⟩
  · exact (retryWithExponentialBackoff_spec opAlwaysOk).1 rfl
  · exact (retryWithExponentialBackoff_spec opFatal).2.1 "bad request" rfl (by decide)
  · exact (retryWithExponentialBackoff_spec opTimeout).2.2
      (fun i _ _ => ⟨"server replied: 504 (Gateway Timeout)", rfl, by decide⟩)

/-- C5 counterexample: when the login RPC succeeds but
`proto.Unmarshal` fails on the response, `login` (and `retryLogin`)
return an error while the stored pair is no longer the previously
stored one — `Unmarshal` resets `d.jwt` before decoding, here leaving
only the access token repopulated — refuting the claim that an
erroring operation leaves the stored pair entirely unchanged. -/
theorem jwt_atomic_update_counterexample :
    (login ⟨"a", "r"⟩ (.decodeError errBadJson ⟨"a2", ""⟩)).err = some errBadJson ∧
    (login ⟨"a", "r"⟩ (.decodeError errBadJson ⟨"a2", ""⟩)).jwt ≠ ⟨"a", "r"⟩ ∧
    (retryLogin ⟨"a", "r"⟩ (.decodeError errBadJson ⟨"a2", ""⟩)).err = some errBadJson ∧
    (retryLogin ⟨"a", "r"⟩ (.decodeError errBadJson ⟨"a2", ""⟩)).jwt ≠ ⟨"a", "r"⟩ := by
  refine ⟨rfl, by decide, ?_, by decide⟩
  rfl

/-- C5 amended: `SignInUser` either returns an error leaving the stored
pair entirely unchanged or replaces both tokens from the response;
`login` and `retryLogin` leave the pair unchanged when the RPC itself
fails (and `retryLogin` when the held refresh token is empty) and
replace both tokens on success — but when the RPC succeeds and the
response fails to unmarshal, they return the error with the stored
pair reset and repopulated only as far as the decoder got, so on that
path a state is observable in which the pair is neither the old one
nor a fully replaced one. -/
theorem jwt_atomic_update :
    ∀ (jwt srv residue : Jwt) (rpc : Except GoErr Jwt) (lo : LoginOutcome) (e : GoErr),
      (∀ e0, (SignInUser jwt rpc).err = some e0 → (SignInUser jwt rpc).jwt = jwt) ∧
      ((SignInUser jwt (.ok srv)).jwt.accessJwt = srv.accessJwt ∧
       (SignInUser jwt (.ok srv)).jwt.refreshJwt = srv.refreshJwt ∧
       (SignInUser jwt (.ok srv)).err = none) ∧
      login jwt (.rpcError e) = ⟨jwt, some e, 1⟩ ∧
      login jwt (.ok srv) = ⟨srv, none, 1⟩ ∧
      login jwt (.decodeError e residue) = ⟨residue, some e, 1⟩ ∧
      (jwt.refreshJwt.length ≠ 0 →
        retryLogin jwt (.rpcError e) = ⟨jwt, some e, 1⟩ ∧
        retryLogin jwt (.ok srv) = ⟨srv, none, 1⟩ ∧
        retryLogin jwt (.decodeError e residue) = ⟨residue, some e, 1⟩) ∧
      (jwt.refreshJwt.length = 0 →
        retryLogin jwt lo = ⟨jwt, some errEmptyRefreshJwt, 0⟩) := by
  intro jwt srv residue rpc lo e
  refine ⟨?_, ⟨rfl, rfl, rfl⟩, rfl, rfl, rfl, ?_, ?_⟩
  · intro e0 _
    cases rpc with
    | error e1 => rfl
    | ok s => simp [SignInUser] at *
  · intro h0
    refine ⟨?_, ?_, ?_⟩ <;> simp [retryLogin, h0]
  · intro h0
    simp [retryLogin, h0]

/-- Witness for C5 (amended) at concrete inputs. -/
theorem jwt_atomic_update_witness :
    (SignInUser ⟨"a", "r"⟩ (.error ⟨false, 2, "boom"⟩)).jwt = ⟨"a", "r"⟩ ∧
    login ⟨"a", "r"⟩ (.ok ⟨"a2", "r2"⟩) = ⟨⟨"a2", "r2"⟩, none, 1⟩ ∧
    retryLogin ⟨"a", "r"⟩ (.ok ⟨"a2", "r2"⟩) = ⟨⟨"a2", "r2"⟩, none, 1⟩ ∧
    retryLogin ⟨"a", ""⟩ (.ok ⟨"a2", "r2"⟩) = ⟨⟨"a", ""⟩, some errEmptyRefreshJwt, 0⟩ := by
  have h := jwt_atomic_update ⟨"a", "r"⟩ ⟨"a2", "r2"⟩ ⟨"a2", ""⟩
    (.error ⟨false, 2, "boom"⟩) (.ok ⟨"a2", "r2"⟩) ⟨false, 2, "boom"⟩
  have h0 := jwt_atomic_update ⟨"a", ""⟩ ⟨"a2", "r2"⟩ ⟨"a2", ""⟩
    (.error ⟨false, 2, "boom"⟩) (.ok ⟨"a2", "r2"⟩) ⟨false, 2, "boom"⟩
  exact ⟨h.1 ⟨false, 2, "boom"⟩ rfl, h.2.2.2.1,
    (h.2.2.2.2.2.1 (by decide)).2.1, h0.2.2.2.2.2.2 rfl⟩

/-- C8: `retryLogin` (exposed as `Relogin`) fails without any network
call and leaves the stored pair unchanged when the held refresh token
is empty; when a refresh token is held it performs the
login-by-refresh-token RPC and replaces both tokens on success (an RPC
failure leaves the pair untouched; a decode failure surfaces the error
with the decoder's residue). -/
theorem retryLogin_spec :
    ∀ (jwt : Jwt) (lo : LoginOutcome),
      (jwt.refreshJwt.length = 0 →
        retryLogin jwt lo = ⟨jwt, some errEmptyRefreshJwt, 0⟩) ∧
      (jwt.refreshJwt.length ≠ 0 →
        (retryLogin jwt lo).net = 1 ∧
        (∀ s, lo = .ok s →
          (retryLogin jwt lo).jwt.accessJwt = s.accessJwt ∧
          (retryLogin jwt lo).jwt.refreshJwt = s.refreshJwt ∧
          (retryLogin jwt lo).err = none) ∧
        (∀ e, lo = .rpcError e → retryLogin jwt lo = ⟨jwt, some e, 1⟩) ∧
        (∀ e j, lo = .decodeError e j →
          (retryLogin jwt lo).err = some e ∧ (retryLogin jwt lo).jwt = j)) := by
  intro jwt lo
  constructor
  · intro h
    simp [retryLogin, h]
  · intro h
    refine ⟨?_, ?_, ?_, ?_⟩
    · cases lo <;> simp [retryLogin, h]
    · rintro s rfl
      simp [retryLogin, h]
    · rintro e rfl
      simp [retryLogin, h]
    · rintro e j rfl
      constructor <;> simp [retryLogin, h]

/-- Witness for C8: an empty refresh token fails fast; a held refresh
token reaches the server and replaces the pair. -/
theorem retryLogin_spec_witness :
    retryLogin ⟨"a", ""⟩ (.ok ⟨"a2", "r2"⟩) = ⟨⟨"a", ""⟩, some errEmptyRefreshJwt, 0⟩ ∧
    (retryLogin ⟨"a", "r"⟩ (.ok ⟨"a2", "r2"⟩)).jwt.accessJwt = "a2" ∧
    (retryLogin ⟨"a", "r"⟩ (.ok ⟨"a2", "r2"⟩)).jwt.refreshJwt = "r2" := by
  have h1 := (retryLogin_spec ⟨"a", ""⟩ (.ok ⟨"a2", "r2"⟩)).1 rfl
  have h2 := ((retryLogin_spec ⟨"a", "r"⟩ (.ok ⟨"a2", "r2"⟩)).2 (by decide)).2.1
    ⟨"a2", "r2"⟩ rfl
  exact ⟨h1, h2.1, h2.2.1⟩

/-- C1: commit and discard (and a successful commit-now mutation) leave
the transaction finished, and on a finished transaction every
`Query`/`Mutate`/`Do`/`Commit` call returns `TransactionFinished`,
performs no network call and leaves the state unchanged; hence any
sequence of subsequent operations performs no network call at all. -/
theorem txn_single_use :
    (∀ t o, (specCommit t o).txn.finished = true) ∧
    (∀ t, (specDiscard t).txn.finished = true) ∧
    (∀ t mu o r, mu.commitNow = true → (specMutate t mu o).out = .ok r →
      (specMutate t mu o).txn.finished = true) ∧
    (∀ t : Txn, t.finished = true →
      (∀ q o, specQuery t q o = ⟨t, .error .errFinished, 0⟩) ∧
      (∀ mu o, specMutate t mu o = ⟨t, .error .errFinished, 0⟩) ∧
      (∀ req o, specDo t req o = ⟨t, .error .errFinished, 0⟩) ∧
      (∀ o, specCommit t o = ⟨t, some .errFinished, 0⟩)) ∧
    (∀ (t : Txn) (ops : List TxnOp), t.finished = true → runTxnOps t ops = (t, 0)) := by
  refine ⟨specCommit_txn_finished, specDiscard_txn_finished, ?_, ?_, runTxnOps_of_finished⟩
  · intro t mu o r hc hok
    by_cases hf : t.finished = true
    · rw [specMutate, specDo_of_finished _ _ _ hf] at hok
      exact absurd hok (by simp)
    · simp only [specMutate, specDo, hf] at hok ⊢
      simp only [Bool.false_eq_true, if_false] at hok ⊢
      by_cases hro : (!([mu] : List MutationReq).isEmpty && t.readOnly) = true
      · rw [if_pos hro] at hok
        exact absurd hok (by simp)
      · rw [if_neg hro] at hok ⊢
        cases o with
        | error e => exact absurd hok (by simp)
        | ok rr => simp [hc] at hok ⊢
  · intro t hf
    exact ⟨fun q o => specDo_of_finished _ _ _ hf,
      fun mu o => specDo_of_finished _ _ _ hf,
      fun req o => specDo_of_finished _ _ _ hf,
      fun o => specCommit_of_finished _ _ hf⟩

/-- Witness for C1: on a concrete finished transaction every operation
fails with `TransactionFinished` and no network call. -/
theorem txn_single_use_witness :
    specQuery tFin "q" (.ok ⟨1, [], []⟩) = ⟨tFin, .error .errFinished, 0⟩ ∧
    specMutate tFin ⟨true⟩ (.ok ⟨1, [], []⟩) = ⟨tFin, .error .errFinished, 0⟩ ∧
    specCommit tFin .ok = ⟨tFin, some .errFinished, 0⟩ ∧
    (specMutate tMut ⟨true⟩ (.ok ⟨7, [], []⟩)).txn.finished = true ∧
    runTxnOps tFin [.query "q" (.ok ⟨1, [], []⟩), .commit .ok] = (tFin, 0) := by
  have h := txn_single_use
  have hf := h.2.2.2.1 tFin rfl
  exact ⟨hf.1 "q" (.ok ⟨1, [], []⟩), hf.2.1 ⟨true⟩ (.ok ⟨1, [], []⟩), hf.2.2.2 .ok,
    h.2.2.1 tMut ⟨true⟩ (.ok ⟨7, [], []⟩) ⟨7, [], []⟩ rfl rfl,
    h.2.2.2.2 tFin [.query "q" (.ok ⟨1, [], []⟩), .commit .ok] rfl⟩

/-- C3: on an active read-only transaction, `Mutate` (and `Do` with a
request carrying mutations) returns `ReadOnlyViolation` before any
network call, leaving the transaction unchanged. -/
theorem txn_read_only :
    ∀ t : Txn, t.finished = false → t.readOnly = true →
      (∀ mu o, specMutate t mu o = ⟨t, .error .errReadOnly, 0⟩) ∧
      (∀ req o, req.mutations ≠ [] → specDo t req o = ⟨t, .error .errReadOnly, 0⟩) := by
  intro t hf hro
  constructor
  · intro mu o
    simp [specMutate, specDo, hf, hro]
  · intro req o hmu
    have : req.mutations.isEmpty = false := by
      cases hm : req.mutations with
      | nil => exact absurd hm hmu
      | cons a l => simp
    simp [specDo, hf, hro, this]

/-- Witness for C3 on a concrete active read-only transaction. -/
theorem txn_read_only_witness :
    specMutate tRO ⟨false⟩ (.ok ⟨1, [], []⟩) = ⟨tRO, .error .errReadOnly, 0⟩ ∧
    specDo tRO ⟨"q", [⟨false⟩], false⟩ (.ok ⟨1, [], []⟩) = ⟨tRO, .error .errReadOnly, 0⟩ := by
  have h := txn_read_only tRO rfl rfl
  exact ⟨h.1 ⟨false⟩ (.ok ⟨1, [], []⟩), h.2 ⟨"q", [⟨false⟩], false⟩ (.ok ⟨1, [], []⟩) (by simp)⟩

/-- C6: calling `Discard` N ≥ 1 times on any transaction produces no
error on any call, performs at most one network notification in total,
and leaves the transaction finished; after a commit the discards
perform no network call at all. -/
theorem txn_discard_idempotent :
    ∀ (t : Txn) (N : Nat), 1 ≤ N →
      (discardN N t).1.finished = true ∧
      (discardN N t).2.2 ≤ 1 ∧
      (∀ e ∈ (discardN N t).2.1, e = none) ∧
      (∀ o, (discardN N (specCommit t o).txn).2.2 = 0) := by
  intro t N hN
  obtain ⟨n, rfl⟩ : ∃ n, N = n + 1 := ⟨N - 1, by omega⟩
  have hfin := specDiscard_txn_finished t
  have hrest := discardN_of_finished n (specDiscard t).txn hfin
  refine ⟨?_, ?_, ?_, ?_⟩
  · simp [discardN, hrest, hfin]
  · simp only [discardN, hrest]
    have := specDiscard_net_le t
    omega
  · simp only [discardN, hrest]
    intro e he
    rcases List.mem_cons.mp he with h1 | h2
    · rw [h1]
      exact specDiscard_err_none t
    · exact List.eq_of_mem_replicate h2
  · intro o
    rw [discardN_of_finished _ _ (specCommit_txn_finished t o)]

/-- Witness for C6: three discards of a concrete active mutated
transaction. -/
theorem txn_discard_idempotent_witness :
    (discardN 3 tMut).1.finished = true ∧
    (discardN 3 tMut).2.2 ≤ 1 ∧
    (∀ e ∈ (discardN 3 tMut).2.1, e = none) ∧
    (discardN 3 (specCommit tMut .ok).txn).2.2 = 0 := by
  have h := txn_discard_idempotent tMut 3 (by omega)
  exact ⟨h.1, h.2.1, h.2.2.1, h.2.2.2 .ok⟩

/-- C9 counterexample: when the input context already carries an
accessJwt metadata entry, `getContext` overwrites it, so the previously
present entry is not preserved — refuting the claim that all previously
present metadata entries are preserved. -/
theorem getContext_preservation_counterexample :
    jwtNew.accessJwt.length > 0 ∧
    mdGet (ctxOld.md.getD mdEmpty) "accessJwt" = ["old"] ∧
    mdGet ((getContext jwtNew ctxOld).md.getD mdEmpty) "accessJwt" ≠ ["old"] := by
  refine ⟨by decide, rfl, ?_⟩
  intro h
  exact absurd h (by decide)

/-- C9 amended: when an access token is held, `getContext` returns a
context whose outgoing metadata has the accessJwt key set to that token
and preserves every previously present entry except the (lowercased)
accessJwt key, which is overwritten; when no access token is held the
input context is returned unchanged. -/
theorem getContext_spec :
    ∀ (jwt : Jwt) (ctx : GoContext),
      (jwt.accessJwt.length > 0 →
        ∃ md', (getContext jwt ctx).md = some md' ∧
          mdGet md' "accessJwt" = [jwt.accessJwt] ∧
          ∀ k, k ≠ "accessjwt" → md' k = (ctx.md.getD mdEmpty) k) ∧
      (jwt.accessJwt.length = 0 → getContext jwt ctx = ctx) := by
  intro jwt ctx
  have hlow : goToLower "accessJwt" = "accessjwt" := by decide
  constructor
  · intro h
    refine ⟨mdSet (ctx.md.getD mdEmpty) "accessJwt" [jwt.accessJwt], ?_, ?_, ?_⟩
    · cases hmd : ctx.md with
      | none => simp [getContext, h, hmd]
      | some m => simp [getContext, h, hmd]
    · show mdSet (ctx.md.getD mdEmpty) "accessJwt" [jwt.accessJwt] (goToLower "accessJwt") = _
      rw [hlow]
      simp [mdSet, hlow]
    · intro k hk
      simp only [mdSet, hlow]
      rw [if_neg (by simp)]
      exact if_neg hk
  · intro h
    simp [getContext, h]

/-- Witness for C9 (amended) at concrete inputs: stamping a token onto a
context with no outgoing metadata, and passing through a tokenless
client's context. -/
theorem getContext_spec_witness :
    mdGet ((getContext ⟨"tok", "r"⟩ ⟨none⟩).md.getD mdEmpty) "accessJwt" = ["tok"] ∧
    getContext ⟨"", "r"⟩ ctxOld = ctxOld := by
  constructor
  · obtain ⟨md', hmd, hget, _⟩ := (getContext_spec ⟨"tok", "r"⟩ ⟨none⟩).1 (by decide)
    rw [hmd]
    exact hget
  · exact (getContext_spec ⟨"", "r"⟩ ctxOld).2 rfl

end Dgo
